import Mathlib

/-!
Shallow embedding of the VidEarn account-eligibility and reward-ledger logic.

Times are modelled as integer milliseconds on a linear clock (the JS `Date`
value of the evaluating client, in a fixed timezone with no DST), matching
`new Date().getTime()`.  Money and coin amounts are integers.  Database
tables are modelled as lists of row structures, and each event handler is a
pure function from the rows it reads to the rows it writes, with errors
surfaced as explicit error values (the source surfaces them via `setError`
with a message string; here each distinct message is a constructor).
-/

/-- Milliseconds in one civil day (`setDate`/`setHours` arithmetic on the
linear clock). -/
def dayMs : Int := 86400000

/-- Midnight at the start of the day containing `t`: the JS idiom
`d.setHours(0, 0, 0, 0)`. -/
def startOfDay (t : Int) : Int := (t / dayMs) * dayMs

/-- Day of week of the instant `t`, Sunday = 0, as JS `Date.getDay()`.
The epoch day (day index 0) was a Thursday, hence the offset 4. -/
def dayOfWeek (t : Int) : Int := (t / dayMs + 4) % 7

/-- Midnight of the most recent Sunday at or before `t`: the source idiom
`startOfWeek.setDate(today.getDate() - dayOfWeek); startOfWeek.setHours(0,0,0,0)`. -/
def startOfWeek (t : Int) : Int := startOfDay t - dayOfWeek t * dayMs

/-- Status of a `transactions` row (`src/types.ts`, `TransactionStatus`). -/
inductive TransactionStatus where
  | pending
  | approved
  | rejected
deriving DecidableEq, Repr

/-- Status of a `withdrawals` row (`src/types.ts`, `WithdrawalStatus`);
the source declares it separately but with the same three values. -/
abbrev WithdrawalStatus := TransactionStatus

/-- A `plans` row (`src/types.ts`, `Plan`). -/
structure Plan where
  id : String
  name : String
  price : Int
  daily_earning : Int
  validity_days : Nat
  videos_per_day : Nat
  created_at : Int
deriving DecidableEq, Repr

/-- A `users` row as the client sees it (`src/types.ts`, `UserProfile`),
with the joined plan in `plans`.  `coins` is the balance field of the
coin-per-video variant; `last_withdraw` is the column the withdrawal code
reads and writes. -/
structure UserProfile where
  id : String
  username : String
  balance : Int
  coins : Int
  plan_id : Option String
  plan_activated_at : Option Int
  last_withdraw : Option Int
  plans : Option Plan
  referral_code : Option String
  referred_by : Option String
  referral_earnings : Int
deriving DecidableEq, Repr

/-- A `transactions` row (`src/types.ts`, `Transaction`). -/
structure Transaction where
  id : Nat
  user_id : String
  amount : Int
  plan_id : String
  tid : String
  status : TransactionStatus
  created_at : Int
deriving DecidableEq, Repr

/-- A `withdrawals` row (`src/types.ts`, `Withdrawal`). -/
structure Withdrawal where
  id : Nat
  user_id : String
  amount : Int
  payment_method : String
  account_number : String
  account_name : String
  status : WithdrawalStatus
  created_at : Int
deriving DecidableEq, Repr

/-- A `videos` row (`src/types.ts`, `Video`); `required_coins` is the cost
field used by the coin-per-video variant of `DashboardPage.tsx`. -/
structure Video where
  id : Nat
  title : String
  watch_duration_seconds : Nat
  required_coins : Int
  created_at : Int
deriving DecidableEq, Repr

/-- A `watched_videos` fact row (`src/types.ts`, `WatchedVideo`). -/
structure WatchedVideo where
  id : Nat
  user_id : String
  video_id : Nat
  watched_at : Int
deriving DecidableEq, Repr

/-- A `daily_claims` fact row (queried in `src/unnamed/part_002`,
`fetchWatchedVideos`). -/
structure DailyClaim where
  user_id : String
  claimed_at : Int
deriving DecidableEq, Repr

/-- The `isPlanCurrentlyActive` flag computed by `fetchProfile` in the auth
context (`src/types.ts` lines 208-224): requires `plan_id`,
`plan_activated_at` and the joined `plans` row all present, computes
`expiry = activation + validity_days` days, and tests `now < expiry`. -/
def isPlanCurrentlyActive (p : UserProfile) (now : Int) : Bool :=
  match p.plan_id, p.plan_activated_at, p.plans with
  | some _, some act, some plan => decide (now < act + (plan.validity_days : Int) * dayMs)
  | _, _, _ => false

/-- The `video_id`s of the watched-video facts the `WatchVideos` component
of `src/unnamed/part_002` fetches: facts of this user with
`watched_at >= startOfToday`. -/
def watchedTodayIds (p : UserProfile) (watched : List WatchedVideo) (now : Int) : List Nat :=
  (watched.filter (fun w => w.user_id == p.id && startOfDay now ≤ w.watched_at)).map
    (fun w => w.video_id)

/-- Whether a daily-claim fact of this user exists with
`claimed_at >= startOfToday` (the `hasClaimedToday` state of
`src/unnamed/part_002`). -/
def hasClaimedToday (p : UserProfile) (claims : List DailyClaim) (now : Int) : Bool :=
  claims.any (fun c => c.user_id == p.id && startOfDay now ≤ c.claimed_at)

/-- Whether the claim-reward button of the `WatchVideos` component of
`src/unnamed/part_002` (lines 341-352) is reachable and enabled: the
component returns the no-active-plan screen when `isPlanCurrentlyActive`
is false, and otherwise enables the button by
`plan && watchedTodayIds.length >= plan.videos_per_day && !hasClaimedToday`. -/
def canClaim (p : UserProfile) (watched : List WatchedVideo) (claims : List DailyClaim)
    (now : Int) : Bool :=
  if !isPlanCurrentlyActive p now then false
  else
    match p.plans with
    | none => false
    | some plan =>
        decide (plan.videos_per_day ≤ (watchedTodayIds p watched now).length) &&
          !hasClaimedToday p claims now

/-- The weekly withdrawal gate of the `WithdrawTab` component of
`src/unnamed/part_002` (lines 572-593): available when no last-withdrawal
timestamp is recorded; otherwise blocked, with next-eligible date the start
of the next calendar week, exactly when `last_withdraw >= startOfWeek`. -/
def canWithdraw (p : UserProfile) (now : Int) : Bool × Option Int :=
  match p.last_withdraw with
  | none => (true, none)
  | some last =>
      let sow := startOfWeek now
      let nextWeekStart := sow + 7 * dayMs
      if sow ≤ last then (false, some nextWeekStart) else (true, none)

/-- The blocking condition of the spec sentence behind C3, taken at its
word, for comparison with `canWithdraw`: blocked exactly when the last
withdrawal lies in the closed interval from the current week Sunday
midnight up to `now`. -/
def blockedWindowPerClaim (p : UserProfile) (now : Int) : Bool :=
  match p.last_withdraw with
  | none => false
  | some last => decide (startOfWeek now ≤ last) && decide (last ≤ now)

/-- A plain profile used as the base of the concrete test accounts. -/
def baseProfile : UserProfile :=
  { id := "u1", username := "a", balance := 0, coins := 0,
    plan_id := none, plan_activated_at := none, last_withdraw := none,
    plans := none, referral_code := none, referred_by := none,
    referral_earnings := 0 }

/-- A profile whose recorded last withdrawal lies 20 days in the future of
the evaluation instant used with it. -/
def futureWithdrawProfile : UserProfile :=
  { baseProfile with last_withdraw := some (20 * dayMs) }

/-- A profile whose recorded last withdrawal lies 30 days in the future of
the evaluation instant used with it. -/
def farFutureWithdrawProfile : UserProfile :=
  { baseProfile with last_withdraw := some (30 * dayMs) }

/-- Validation errors of the withdrawal request form, one constructor per
`setError` message of the `WithdrawTab` handler of `src/unnamed/part_002`
(lines 597-627). -/
inductive WithdrawErr where
  | weeklyLimit
  | invalidAmount
  | belowMinimum
  | insufficientBalance
  | missingDetails
deriving DecidableEq, Repr

/-- The withdrawal request handler of the `WithdrawTab` component of
`src/unnamed/part_002`: the guards run in source order and each failing
guard returns before any persistence call, so the profile and the
withdrawals table are returned unchanged with the error; when all guards
pass, exactly one pending withdrawal row is inserted and the stored
profile is not written.  (The source also pokes `profile.last_withdraw`
into the local client state object after the insert; that is transient UI
state, not a persistence write, and the table row is untouched.) -/
def requestWithdrawal (p : UserProfile) (now amount : Int)
    (method accountNumber accountName : String) (withdrawals : List Withdrawal)
    (freshId : Nat) : (UserProfile × List Withdrawal) × Option WithdrawErr :=
  if !(canWithdraw p now).1 then ((p, withdrawals), some .weeklyLimit)
  else if amount ≤ 0 then ((p, withdrawals), some .invalidAmount)
  else if amount < 200 then ((p, withdrawals), some .belowMinimum)
  else if p.balance < amount then ((p, withdrawals), some .insufficientBalance)
  else if method == "" || accountNumber == "" || accountName == "" then
    ((p, withdrawals), some .missingDetails)
  else
    ((p, withdrawals ++
        [{ id := freshId, user_id := p.id, amount := amount,
           payment_method := method, account_number := accountNumber,
           account_name := accountName, status := .pending,
           created_at := now }]), none)

/-- Errors of the coin-variant video-open handler, one constructor per
`setError` message of `handleOpenVideo` in `src/pages/DashboardPage.tsx`
(lines 142-176). -/
inductive VideoErr where
  | alreadyWatched
  | notEnoughCoins
deriving DecidableEq, Repr

/-- The coin-variant `handleOpenVideo` of `src/pages/DashboardPage.tsx`:
rejects an already-watched video and a coin balance below the cost before
any write; otherwise writes `coins := coins - required_coins` to the users
row. -/
def handleOpenVideo (p : UserProfile) (watchedVideos : List Nat) (v : Video) :
    UserProfile × Option VideoErr :=
  if watchedVideos.contains v.id then (p, some .alreadyWatched)
  else if p.coins < v.required_coins then (p, some .notEnoughCoins)
  else ({ p with coins := p.coins - v.required_coins }, none)

/-- Modelled from the spec: the stored procedure `award_referral_bonus`
invoked by the transaction-approval handler is not part of this
repository; per the spec it atomically increments the referring account
balance and referral earnings by the fixed bonus amount. -/
def awardReferralBonus (r : UserProfile) (amount : Int) : UserProfile :=
  { r with balance := r.balance + amount,
           referral_earnings := r.referral_earnings + amount }

/-- One persistence write issued by the transaction-approval handler, in
the order the source issues them. -/
inductive DbWrite where
  | awardBonus (referrerId : String) (amount : Int)
  | setUserPlan (userId : String) (planId : String) (activatedAt : Int)
  | setTransactionStatus (txId : Nat) (st : TransactionStatus)
deriving DecidableEq, Repr

/-- The sequence of persistence writes issued by `handleUpdate` of the
`ManageTransactions` component of `src/pages/DashboardPage.tsx` (lines
726-778): nothing on a non-pending row; on approval, first the
referral-bonus procedure call when the freshly fetched purchaser has no
plan reference and a referrer, then the plan-activation update, then the
status update; on rejection only the status update. -/
def handleUpdateWrites (tx : Transaction) (purchaser : UserProfile) (now : Int)
    (approve : Bool) : List DbWrite :=
  if tx.status ≠ .pending then []
  else if approve then
    (match purchaser.plan_id, purchaser.referred_by with
     | none, some rid => [DbWrite.awardBonus rid 100]
     | _, _ => []) ++
      [DbWrite.setUserPlan tx.user_id tx.plan_id now,
       DbWrite.setTransactionStatus tx.id .approved]
  else [DbWrite.setTransactionStatus tx.id .rejected]

/-- State semantics of the same `handleUpdate` handler, tracking the
purchasing account, the referring account and the transaction row.
`bonusSucceeds` injects a failure of the remote bonus procedure; the
source logs such a failure and proceeds with the activation and the
status update.  The bonus applies to the tracked referrer profile when
the purchaser referral reference names it. -/
def handleUpdateTx (purchaser referrer : UserProfile) (tx : Transaction) (now : Int)
    (approve bonusSucceeds : Bool) : UserProfile × UserProfile × Transaction :=
  if tx.status ≠ .pending then (purchaser, referrer, tx)
  else if approve then
    let referrer' :=
      match purchaser.plan_id, purchaser.referred_by with
      | none, some rid =>
          if bonusSucceeds && rid == referrer.id then awardReferralBonus referrer 100
          else referrer
      | _, _ => referrer
    ({ purchaser with plan_id := some tx.plan_id, plan_activated_at := some now },
      referrer', { tx with status := .approved })
  else (purchaser, referrer, { tx with status := .rejected })

/-- Error of the plan-variant withdrawal approval handler
(`ManageWithdrawals` of `src/pages/DashboardPage.tsx`): the balance
re-check at approval time failed. -/
inductive ApproveErr where
  | insufficientBalance
deriving DecidableEq, Repr

/-- The `handleApprove` of the `ManageWithdrawals` component of
`src/pages/DashboardPage.tsx` (lines 832-862): a no-op on a non-pending
row; on a pending row it re-checks the user balance and throws before any
write when it is below the requested amount, and otherwise deducts the
amount, stamps `last_withdraw`, and marks the row approved. -/
def approveWithdrawalPlan (p : UserProfile) (wd : Withdrawal) (now : Int) :
    (UserProfile × Withdrawal) × Option ApproveErr :=
  if wd.status ≠ .pending then ((p, wd), none)
  else if p.balance < wd.amount then ((p, wd), some .insufficientBalance)
  else
    (({ p with balance := p.balance - wd.amount, last_withdraw := some now },
      { wd with status := .approved }), none)

/-- The `handleReject` of the `ManageWithdrawals` component of
`src/pages/DashboardPage.tsx`: a no-op on a non-pending row; otherwise
only the status transition, with no balance write. -/
def rejectWithdrawalPlan (wd : Withdrawal) : Withdrawal :=
  if wd.status ≠ .pending then wd else { wd with status := .rejected }

/-- The `handleApprove` of the `ManageWithdrawals` component of
`src/unnamed/part_003` (lines 167-177), the coin variant: a no-op on a
non-pending row; otherwise only the status transition. -/
def approveWithdrawalCoin (wd : Withdrawal) : Withdrawal :=
  if wd.status ≠ .pending then wd else { wd with status := .approved }

/-- The `handleReject` of the `ManageWithdrawals` component of
`src/unnamed/part_003` (lines 179-204), the coin variant: a no-op on a
non-pending row; otherwise refunds the amount to the user balance and
marks the row rejected. -/
def rejectWithdrawalCoin (p : UserProfile) (wd : Withdrawal) :
    UserProfile × Withdrawal :=
  if wd.status ≠ .pending then (p, wd)
  else ({ p with balance := p.balance + wd.amount }, { wd with status := .rejected })

/-- A purchaser eligible for the referral bonus: no plan reference yet and
referred by account `r1`. -/
def eligiblePurchaser : UserProfile :=
  { baseProfile with referred_by := some "r1" }

/-- A concrete pending plan-purchase transaction of `eligiblePurchaser`. -/
def pendingPlanTx : Transaction :=
  { id := 1, user_id := "u1", amount := 500, plan_id := "p1", tid := "t1",
    status := .pending, created_at := 0 }

/-- The referring account `r1` with a concrete starting balance and
referral earnings. -/
def referrerProfile : UserProfile :=
  { baseProfile with id := "r1", balance := 50, referral_earnings := 5 }

/-- A second pending plan purchase by the same account. -/
def secondPlanTx : Transaction :=
  { pendingPlanTx with id := 2, tid := "t2" }

/-- A withdrawal row already in a terminal state. -/
def approvedWd : Withdrawal :=
  { id := 3, user_id := "u1", amount := 200, payment_method := "EasyPaisa",
    account_number := "0300", account_name := "Ali", status := .approved,
    created_at := 0 }

/-- A pending withdrawal row for the approval scenarios. -/
def pendingWd : Withdrawal :=
  { approvedWd with id := 4, status := .pending }

/-- An account with balance 150 for the insufficient-balance scenario. -/
def poorProfile : UserProfile :=
  { baseProfile with balance := 150 }

/-- An account with balance 500 for the accepted-request scenario. -/
def richProfile : UserProfile :=
  { baseProfile with balance := 500 }

/-- C1: the plan-active flag is false when the plan reference or the
activation timestamp is absent, and otherwise is true exactly when the
current time is strictly before activation plus `validity_days` days. -/
theorem isPlanActive_iff (p : UserProfile) (plan : Plan) (now : Int)
    (hplans : p.plans = some plan) :
    isPlanCurrentlyActive p now = true ↔
      p.plan_id.isSome = true ∧
        ∃ act, p.plan_activated_at = some act ∧
          now < act + (plan.validity_days : Int) * dayMs := by
  unfold isPlanCurrentlyActive
  rcases hpid : p.plan_id with _ | pid <;>
    rcases hact : p.plan_activated_at with _ | act <;>
      simp [hplans, hpid, hact]

/-- Witness for `isPlanActive_iff`: a concrete profile one day into a
30-day plan is active. -/
theorem isPlanActive_iff_witness :
    isPlanCurrentlyActive
      { id := "u1", username := "a", balance := 0, coins := 0,
        plan_id := some "p1", plan_activated_at := some 0,
        last_withdraw := none,
        plans := some { id := "p1", name := "basic", price := 500,
                        daily_earning := 50, validity_days := 30,
                        videos_per_day := 5, created_at := 0 },
        referral_code := none, referred_by := none, referral_earnings := 0 }
      dayMs = true := by
  have h := isPlanActive_iff
    { id := "u1", username := "a", balance := 0, coins := 0,
      plan_id := some "p1", plan_activated_at := some 0,
      last_withdraw := none,
      plans := some { id := "p1", name := "basic", price := 500,
                      daily_earning := 50, validity_days := 30,
                      videos_per_day := 5, created_at := 0 },
      referral_code := none, referred_by := none, referral_earnings := 0 }
    { id := "p1", name := "basic", price := 500, daily_earning := 50,
      validity_days := 30, videos_per_day := 5, created_at := 0 }
    dayMs rfl
  exact h.mpr ⟨rfl, 0, rfl, by decide⟩

/-- C2: the claim-reward action is enabled exactly when the plan is
currently active, the number of videos watched today meets the plan quota,
and no daily claim exists for today. -/
theorem canClaim_iff (p : UserProfile) (plan : Plan) (watched : List WatchedVideo)
    (claims : List DailyClaim) (now : Int) (hplans : p.plans = some plan) :
    canClaim p watched claims now = true ↔
      isPlanCurrentlyActive p now = true ∧
        plan.videos_per_day ≤ (watchedTodayIds p watched now).length ∧
        hasClaimedToday p claims now = false := by
  rcases h : isPlanCurrentlyActive p now <;>
    simp [canClaim, hplans, h]

/-- Witness for `canClaim_iff`: an account one second into an active plan
with quota 1, one video watched today and no claim yet, can claim. -/
theorem canClaim_iff_witness :
    canClaim
      { baseProfile with
          plan_id := some "p1", plan_activated_at := some 0,
          plans := some { id := "p1", name := "basic", price := 500,
                          daily_earning := 50, validity_days := 30,
                          videos_per_day := 1, created_at := 0 } }
      [{ id := 1, user_id := "u1", video_id := 7, watched_at := 1000 }] [] 1000 = true := by
  have h := canClaim_iff
    { baseProfile with
        plan_id := some "p1", plan_activated_at := some 0,
        plans := some { id := "p1", name := "basic", price := 500,
                        daily_earning := 50, validity_days := 30,
                        videos_per_day := 1, created_at := 0 } }
    { id := "p1", name := "basic", price := 500, daily_earning := 50,
      validity_days := 30, videos_per_day := 1, created_at := 0 }
    [{ id := 1, user_id := "u1", video_id := 7, watched_at := 1000 }] [] 1000 rfl
  exact h.mpr ⟨by decide, by decide, by decide⟩

/-- C3 counterexample: on a Sunday shortly after midnight, an account whose
recorded last withdrawal lies in the future (day 20) is reported
unavailable by the code, while the condition claimed in C3 (last
withdrawal within the window from Sunday midnight up to now) does not
hold, so availability claimed by C3 is refuted. -/
theorem canWithdraw_window_cex :
    (canWithdraw futureWithdrawProfile (3 * dayMs + 1000)).1 = false ∧
      blockedWindowPerClaim futureWithdrawProfile (3 * dayMs + 1000) = false := by
  decide

/-- C3 amended: the gate is unavailable with next-eligible date equal to
the upcoming Sunday midnight exactly when the last withdrawal timestamp is
at or after the current week Sunday midnight (with no upper bound at
`now`); an absent or strictly earlier timestamp yields available. -/
theorem canWithdraw_spec (p : UserProfile) (now : Int) :
    (p.last_withdraw = none → canWithdraw p now = (true, none)) ∧
      ∀ last, p.last_withdraw = some last →
        (startOfWeek now ≤ last →
          canWithdraw p now = (false, some (startOfWeek now + 7 * dayMs))) ∧
        (last < startOfWeek now → canWithdraw p now = (true, none)) := by
  refine ⟨fun h => by simp [canWithdraw, h], fun last h => ⟨fun hle => ?_, fun hlt => ?_⟩⟩
  · simp [canWithdraw, h, if_pos hle]
  · simp [canWithdraw, h, if_neg (by omega : ¬ startOfWeek now ≤ last)]

/-- Witness for `canWithdraw_spec`: a withdrawal made five milliseconds
after Sunday midnight of day 10 blocks the gate at that Sunday, with the
next eligible date one week later. -/
theorem canWithdraw_spec_witness :
    canWithdraw { baseProfile with last_withdraw := some (10 * dayMs + 5) }
        (10 * dayMs + 10) =
      (false, some (startOfWeek (10 * dayMs + 10) + 7 * dayMs)) :=
  ((canWithdraw_spec { baseProfile with last_withdraw := some (10 * dayMs + 5) }
      (10 * dayMs + 10)).2 (10 * dayMs + 5) rfl).1 (by decide)

/-- C9 counterexample: on a Monday (day 4), an account whose recorded last
withdrawal is at day 30 is blocked and receives next-eligible date day 10,
which is not strictly later than the last-withdrawal timestamp. -/
theorem nextEligibleDate_cex :
    (canWithdraw farFutureWithdrawProfile (4 * dayMs + 500)).1 = false ∧
      (canWithdraw farFutureWithdrawProfile (4 * dayMs + 500)).2 = some (10 * dayMs) ∧
      farFutureWithdrawProfile.last_withdraw = some (30 * dayMs) ∧
      ¬ (30 * dayMs : Int) < 10 * dayMs := by
  decide

/-- C9 amended: whenever the gate reports unavailable for an account with
a recorded last withdrawal, the next-eligible date is the current week
Sunday midnight plus seven days, it is strictly later than the current
time, and it is strictly later than the last-withdrawal timestamp whenever
that timestamp is not in the future. -/
theorem nextEligibleDate_spec (p : UserProfile) (now last : Int)
    (h : p.last_withdraw = some last) (hb : (canWithdraw p now).1 = false) :
    (canWithdraw p now).2 = some (startOfWeek now + 7 * dayMs) ∧
      now < startOfWeek now + 7 * dayMs ∧
      (last ≤ now → last < startOfWeek now + 7 * dayMs) := by
  have hkey : now < startOfWeek now + 7 * dayMs := by
    unfold startOfWeek startOfDay dayOfWeek dayMs
    omega
  have hsow : startOfWeek now ≤ last := by
    by_contra hc
    simp [canWithdraw, h, if_neg hc] at hb
  exact ⟨by simp [canWithdraw, h, if_pos hsow], hkey, fun hle => by omega⟩

/-- Witness for `nextEligibleDate_spec`: an account that withdrew at noon
of day 11 is blocked on the evening of day 11, and its next eligible date
is the following Sunday, later than both the clock and the withdrawal. -/
theorem nextEligibleDate_spec_witness :
    (canWithdraw { baseProfile with last_withdraw := some (11 * dayMs) }
        (11 * dayMs + 7)).2 =
        some (startOfWeek (11 * dayMs + 7) + 7 * dayMs) ∧
      (11 * dayMs + 7 : Int) < startOfWeek (11 * dayMs + 7) + 7 * dayMs ∧
      ((11 * dayMs : Int) ≤ 11 * dayMs + 7 →
        (11 * dayMs : Int) < startOfWeek (11 * dayMs + 7) + 7 * dayMs) :=
  nextEligibleDate_spec { baseProfile with last_withdraw := some (11 * dayMs) }
    (11 * dayMs + 7) (11 * dayMs) rfl (by decide)

/-- C4: a withdrawal request failing validation (below minimum, above
balance, or weekly gate unavailable) reports an error and leaves the
profile and the withdrawals table unchanged. -/
theorem requestWithdrawal_rejects (p : UserProfile) (now amount : Int)
    (method accountNumber accountName : String) (ws : List Withdrawal) (fid : Nat)
    (h : amount < 200 ∨ p.balance < amount ∨ (canWithdraw p now).1 = false) :
    (requestWithdrawal p now amount method accountNumber accountName ws fid).1 = (p, ws) ∧
      (requestWithdrawal p now amount method accountNumber accountName ws fid).2.isSome
        = true := by
  unfold requestWithdrawal
  split
  · exact ⟨rfl, rfl⟩
  next hw =>
    split
    · exact ⟨rfl, rfl⟩
    next =>
      split
      · exact ⟨rfl, rfl⟩
      next hmin =>
        split
        · exact ⟨rfl, rfl⟩
        next hbal =>
          split
          · exact ⟨rfl, rfl⟩
          next =>
            exfalso
            rcases h with h | h | h
            · exact hmin h
            · exact hbal h
            · simp [h] at hw

/-- Witness for `requestWithdrawal_rejects`: an account with balance 150
asking to withdraw 200 is rejected with the insufficient-balance error and
nothing is written. -/
theorem requestWithdrawal_rejects_witness :
    (requestWithdrawal poorProfile 0 200 "EasyPaisa" "0300" "Ali" [] 1).1
        = (poorProfile, []) ∧
      (requestWithdrawal poorProfile 0 200 "EasyPaisa" "0300" "Ali" [] 1).2
        = some WithdrawErr.insufficientBalance := by
  have h := requestWithdrawal_rejects poorProfile 0 200 "EasyPaisa" "0300" "Ali" [] 1
    (Or.inr (Or.inl (by decide)))
  exact ⟨h.1, by decide⟩

/-- C5: during approval of a pending plan purchase, the referral bonus goes
to the referring account exactly when the purchaser had no plan reference
and has a referrer, adding 100 to both the referrer balance and referral
earnings; a second approved purchase never re-triggers it; and a failing
bonus step does not block the plan activation or the approval. -/
theorem referralBonus_spec (purchaser referrer : UserProfile) (tx tx2 : Transaction)
    (now now2 : Int) (bs : Bool) (hpend : tx.status = .pending) :
    (purchaser.plan_id = none → purchaser.referred_by = some referrer.id →
        (handleUpdateTx purchaser referrer tx now true true).2.1 =
            awardReferralBonus referrer 100 ∧
          (awardReferralBonus referrer 100).balance = referrer.balance + 100 ∧
          (awardReferralBonus referrer 100).referral_earnings =
            referrer.referral_earnings + 100) ∧
      (purchaser.plan_id ≠ none ∨ purchaser.referred_by = none →
        (handleUpdateTx purchaser referrer tx now true bs).2.1 = referrer) ∧
      (tx2.status = .pending →
        (handleUpdateTx (handleUpdateTx purchaser referrer tx now true bs).1 referrer
            tx2 now2 true bs).2.1 = referrer) ∧
      ((handleUpdateTx purchaser referrer tx now true bs).1.plan_id = some tx.plan_id ∧
        (handleUpdateTx purchaser referrer tx now true bs).1.plan_activated_at
          = some now ∧
        (handleUpdateTx purchaser referrer tx now true bs).2.2.status = .approved) := by
  refine ⟨fun hp hr => ?_, fun hne => ?_, fun hp2 => ?_, ?_, ?_, ?_⟩
  · simp [handleUpdateTx, hpend, hp, hr, awardReferralBonus]
  · rcases hne with hne | hne
    · rcases hpid : purchaser.plan_id with _ | pid
      · exact absurd hpid hne
      · simp [handleUpdateTx, hpend, hpid]
    · simp [handleUpdateTx, hpend, hne]
  · simp [handleUpdateTx, hpend, hp2]
  · simp [handleUpdateTx, hpend]
  · simp [handleUpdateTx, hpend]
  · simp [handleUpdateTx, hpend]

/-- Witness for `referralBonus_spec`: approving the first pending plan
purchase of the referred account credits the referrer with the bonus, and
approving a second purchase afterwards leaves the referrer untouched. -/
theorem referralBonus_spec_witness :
    (handleUpdateTx eligiblePurchaser referrerProfile pendingPlanTx 0 true true).2.1 =
        awardReferralBonus referrerProfile 100 ∧
      (handleUpdateTx
          (handleUpdateTx eligiblePurchaser referrerProfile pendingPlanTx 0 true true).1
          referrerProfile secondPlanTx 1 true true).2.1 = referrerProfile := by
  have h := referralBonus_spec eligiblePurchaser referrerProfile pendingPlanTx
    secondPlanTx 0 1 true rfl
  exact ⟨(h.1 rfl rfl).1, h.2.2.1 rfl⟩

/-- C6 counterexample: approving the concrete eligible pending purchase
issues the referral-bonus call first and the plan-activation write second,
not in the order the claim states. -/
theorem approvalOrder_cex :
    handleUpdateWrites pendingPlanTx eligiblePurchaser 5 true =
        [DbWrite.awardBonus "r1" 100, DbWrite.setUserPlan "u1" "p1" 5,
         DbWrite.setTransactionStatus 1 .approved] ∧
      handleUpdateWrites pendingPlanTx eligiblePurchaser 5 true ≠
        [DbWrite.setUserPlan "u1" "p1" 5, DbWrite.awardBonus "r1" 100,
         DbWrite.setTransactionStatus 1 .approved] := by
  decide

/-- C6 amended: approving a pending plan purchase performs, in this order,
(1) the referral-bonus awarder call when the purchaser had no plan
reference and has a referrer, (2) the plan reference and activation
timestamp update, (3) the status transition to approved; rejecting
performs only the status transition. -/
theorem approvalOrder_spec (tx : Transaction) (purchaser : UserProfile) (now : Int)
    (hpend : tx.status = .pending) :
    (purchaser.plan_id = none → ∀ rid, purchaser.referred_by = some rid →
        handleUpdateWrites tx purchaser now true =
          [DbWrite.awardBonus rid 100, DbWrite.setUserPlan tx.user_id tx.plan_id now,
           DbWrite.setTransactionStatus tx.id .approved]) ∧
      (purchaser.plan_id ≠ none ∨ purchaser.referred_by = none →
        handleUpdateWrites tx purchaser now true =
          [DbWrite.setUserPlan tx.user_id tx.plan_id now,
           DbWrite.setTransactionStatus tx.id .approved]) ∧
      handleUpdateWrites tx purchaser now false =
        [DbWrite.setTransactionStatus tx.id .rejected] := by
  refine ⟨fun hp rid hr => ?_, fun hne => ?_, ?_⟩
  · simp [handleUpdateWrites, hpend, hp, hr]
  · rcases hne with hne | hne
    · rcases hpid : purchaser.plan_id with _ | pid
      · exact absurd hpid hne
      · simp [handleUpdateWrites, hpend, hpid]
    · simp [handleUpdateWrites, hpend, hne]
  · simp [handleUpdateWrites, hpend]

/-- Witness for `approvalOrder_spec`: the write order on the concrete
eligible purchase, and the rejection writes. -/
theorem approvalOrder_spec_witness :
    handleUpdateWrites pendingPlanTx eligiblePurchaser 5 true =
        [DbWrite.awardBonus "r1" 100, DbWrite.setUserPlan "u1" "p1" 5,
         DbWrite.setTransactionStatus 1 .approved] ∧
      handleUpdateWrites pendingPlanTx eligiblePurchaser 5 false =
        [DbWrite.setTransactionStatus 1 .rejected] := by
  have h := approvalOrder_spec pendingPlanTx eligiblePurchaser 5 rfl
  exact ⟨h.1 rfl "r1" rfl, h.2.2⟩

/-- C7: every admin approve or reject handler is a no-op on a record whose
status is not pending, and a pending record transitions to exactly the one
terminal state of the action taken. -/
theorem terminalStatus_spec (purchaser referrer p : UserProfile) (tx : Transaction)
    (wd : Withdrawal) (now : Int) (approve bs : Bool) :
    (tx.status ≠ .pending →
        handleUpdateTx purchaser referrer tx now approve bs = (purchaser, referrer, tx) ∧
          handleUpdateWrites tx purchaser now approve = []) ∧
      (wd.status ≠ .pending →
        approveWithdrawalPlan p wd now = ((p, wd), none) ∧
          rejectWithdrawalPlan wd = wd ∧
          approveWithdrawalCoin wd = wd ∧
          rejectWithdrawalCoin p wd = (p, wd)) ∧
      (tx.status = .pending →
        (handleUpdateTx purchaser referrer tx now true bs).2.2.status = .approved ∧
          (handleUpdateTx purchaser referrer tx now false bs).2.2.status = .rejected) ∧
      (wd.status = .pending →
        (wd.amount ≤ p.balance →
            ((approveWithdrawalPlan p wd now).1.2).status = .approved) ∧
          (rejectWithdrawalPlan wd).status = .rejected ∧
          (approveWithdrawalCoin wd).status = .approved ∧
          (rejectWithdrawalCoin p wd).2.status = .rejected) := by
  refine ⟨fun ht => ?_, fun hw => ?_, fun ht => ?_, fun hw => ?_⟩
  · exact ⟨by simp [handleUpdateTx, ht], by simp [handleUpdateWrites, ht]⟩
  · exact ⟨by simp [approveWithdrawalPlan, hw], by simp [rejectWithdrawalPlan, hw],
      by simp [approveWithdrawalCoin, hw], by simp [rejectWithdrawalCoin, hw]⟩
  · exact ⟨by simp [handleUpdateTx, ht], by simp [handleUpdateTx, ht]⟩
  · refine ⟨fun hle => ?_, by simp [rejectWithdrawalPlan, hw],
      by simp [approveWithdrawalCoin, hw], by simp [rejectWithdrawalCoin, hw]⟩
    simp [approveWithdrawalPlan, hw, if_neg (by omega : ¬ p.balance < wd.amount)]

/-- Witness for `terminalStatus_spec`: the handlers leave an
already-approved withdrawal untouched, and approving the concrete pending
withdrawal of an account with sufficient balance yields the approved
status. -/
theorem terminalStatus_spec_witness :
    (approveWithdrawalPlan richProfile approvedWd 0 = ((richProfile, approvedWd), none) ∧
        rejectWithdrawalPlan approvedWd = approvedWd ∧
        approveWithdrawalCoin approvedWd = approvedWd ∧
        rejectWithdrawalCoin richProfile approvedWd = (richProfile, approvedWd)) ∧
      ((approveWithdrawalPlan richProfile pendingWd 0).1.2).status = .approved := by
  have h1 := terminalStatus_spec baseProfile baseProfile richProfile pendingPlanTx
    approvedWd 0 true true
  have h2 := terminalStatus_spec baseProfile baseProfile richProfile pendingPlanTx
    pendingWd 0 true true
  exact ⟨h1.2.1 (by decide), (h2.2.2.2 rfl).1 (by decide)⟩

/-- C8: in the plan variant a valid withdrawal request inserts exactly one
pending withdrawal row and leaves the stored profile (and its balance)
untouched; admin approval re-checks the balance and fails closed with no
state change when it is below the amount, and otherwise deducts exactly
the amount, stamps the last-withdrawal timestamp, and marks the row
approved. -/
theorem withdrawalLifecycle_spec (p q : UserProfile) (now now2 amount : Int)
    (method accountNumber accountName : String) (ws : List Withdrawal) (fid : Nat)
    (wd : Withdrawal) :
    ((canWithdraw p now).1 = true → 0 < amount → 200 ≤ amount → amount ≤ p.balance →
        method ≠ "" → accountNumber ≠ "" → accountName ≠ "" →
        requestWithdrawal p now amount method accountNumber accountName ws fid =
          ((p, ws ++
              [{ id := fid, user_id := p.id, amount := amount,
                 payment_method := method, account_number := accountNumber,
                 account_name := accountName, status := .pending,
                 created_at := now }]), none)) ∧
      (wd.status = .pending → q.balance < wd.amount →
        approveWithdrawalPlan q wd now2 = ((q, wd), some .insufficientBalance)) ∧
      (wd.status = .pending → wd.amount ≤ q.balance →
        approveWithdrawalPlan q wd now2 =
          (({ q with balance := q.balance - wd.amount, last_withdraw := some now2 },
            { wd with status := .approved }), none)) := by
  refine ⟨fun hg h0 h2 hb hm ha hn => ?_, fun hp hlt => ?_, fun hp hle => ?_⟩
  · unfold requestWithdrawal
    rw [if_neg (by simp [hg]), if_neg (by omega : ¬ amount ≤ 0),
      if_neg (by omega : ¬ amount < 200), if_neg (by omega : ¬ p.balance < amount),
      if_neg (by simp [hm, ha, hn])]
  · simp [approveWithdrawalPlan, hp, if_pos hlt]
  · simp [approveWithdrawalPlan, hp, if_neg (by omega : ¬ q.balance < wd.amount)]

/-- Witness for `withdrawalLifecycle_spec`: an account with balance 500 and
no prior withdrawal requesting 200 gets a single pending row with its
balance untouched, and approving the concrete pending 200 withdrawal
against balance 500 deducts to 300, stamps the timestamp and approves. -/
theorem withdrawalLifecycle_spec_witness :
    requestWithdrawal richProfile 0 200 "EasyPaisa" "0300" "Ali" [] 1 =
        ((richProfile,
          [{ id := 1, user_id := "u1", amount := 200, payment_method := "EasyPaisa",
             account_number := "0300", account_name := "Ali", status := .pending,
             created_at := 0 }]), none) ∧
      approveWithdrawalPlan richProfile pendingWd 7 =
        (({ richProfile with balance := 300, last_withdraw := some 7 },
          { pendingWd with status := .approved }), none) := by
  have h := withdrawalLifecycle_spec richProfile richProfile 0 7 200
    "EasyPaisa" "0300" "Ali" [] 1 pendingWd
  refine ⟨?_, ?_⟩
  · have := h.1 (by decide) (by decide) (by decide) (by decide)
      (by decide) (by decide) (by decide)
    simpa [richProfile, baseProfile] using this
  · have := h.2.2 rfl (by decide)
    simpa [richProfile, baseProfile, pendingWd, approvedWd] using this

/-- C10: opening a video in the coin variant reports an error and writes
nothing when the video was already watched or the coin balance is below
the cost, and otherwise deducts exactly the cost, never driving the stored
coin balance negative. -/
theorem openVideo_spec (p : UserProfile) (watched : List Nat) (v : Video) :
    (watched.contains v.id = true →
        handleOpenVideo p watched v = (p, some .alreadyWatched)) ∧
      (watched.contains v.id = false → p.coins < v.required_coins →
        handleOpenVideo p watched v = (p, some .notEnoughCoins)) ∧
      (watched.contains v.id = false → v.required_coins ≤ p.coins →
        handleOpenVideo p watched v =
            ({ p with coins := p.coins - v.required_coins }, none) ∧
          0 ≤ p.coins - v.required_coins) := by
  refine ⟨fun hin => ?_, fun hout hlt => ?_, fun hout hle => ?_⟩
  · unfold handleOpenVideo
    rw [if_pos hin]
  · unfold handleOpenVideo
    rw [if_neg (by simpa using hout), if_pos hlt]
  · refine ⟨?_, by omega⟩
    unfold handleOpenVideo
    rw [if_neg (by simpa using hout), if_neg (by omega : ¬ p.coins < v.required_coins)]

/-- Witness for `openVideo_spec`: an account with 10 coins opening an
unwatched video costing 4 ends with 6 coins and no error. -/
theorem openVideo_spec_witness :
    handleOpenVideo { baseProfile with coins := 10 } []
        { id := 9, title := "v", watch_duration_seconds := 30,
          required_coins := 4, created_at := 0 } =
      ({ baseProfile with coins := 6 }, none) ∧
      (0 : Int) ≤ (10 : Int) - 4 := by
  have h := (openVideo_spec { baseProfile with coins := 10 } []
    { id := 9, title := "v", watch_duration_seconds := 30,
      required_coins := 4, created_at := 0 }).2.2 rfl (by decide)
  exact ⟨by simpa [baseProfile] using h.1, by decide⟩
